import Mathlib

/-!
Verification of `nano::timestamp_generator` (`nano/lib/timestamp.hpp`).

A shallow embedding of the 64-bit timestamp generator.  `uint64_t` values are
natural numbers below `2 ^ 64`; every operation that can leave that range in C++
is reduced modulo `2 ^ 64` explicitly.  The wall clock and the outcome of each
`compare_exchange_weak` are inputs of the model.
-/

namespace nano
namespace timestamp_generator

/-- Source: `static int constexpr time_bits { 44 }`. -/
def time_bits : Nat := 44

/-- Source: `static int constexpr count_bits { 20 }`. -/
def count_bits : Nat := 20

/-- The constant `~0ULL`. -/
def all_ones : Nat := 2 ^ 64 - 1

/-- Source: `time_mask { ~0ULL << count_bits }`, a left shift in `uint64_t`. -/
def time_mask : Nat := (all_ones <<< count_bits) % 2 ^ 64

/-- Source: `count_mask { ~0ULL >> time_bits }`. -/
def count_mask : Nat := all_ones >>> time_bits

/-- Source: `component_time`, `value_a & time_mask`. -/
def component_time (value_a : Nat) : Nat := value_a &&& time_mask

/-- Source: `component_count`, `value_a & count_mask`. -/
def component_count (value_a : Nat) : Nat := value_a &&& count_mask

/-- Source: `timestamp_from_ms`, `value_a << count_bits` in `uint64_t`. -/
def timestamp_from_ms (value_a : Nat) : Nat := (value_a <<< count_bits) % 2 ^ 64

/-- Source: `now`, with the millisecond count of the system clock (already converted
to `uint64_t`) passed in as `ms_since_epoch`. -/
def now (ms_since_epoch : Nat) : Nat := timestamp_from_ms ms_since_epoch

/-- What one pass through the `while (result == 0)` loop takes from its environment:
the millisecond count that `now ()` reads, and whether `compare_exchange_weak` succeeds
when the cursor still holds the expected value. -/
structure Attempt where
  ms_since_epoch : Nat
  cas_ok : Bool
deriving DecidableEq

/-- The call `next.compare_exchange_weak (expected, desired)` on a cursor holding `next`.
Returns the success flag, the cursor afterwards and the value of `expected` afterwards
(on failure `expected` is overwritten with the value found). -/
def compare_exchange_weak (next expected desired : Nat) (cas_ok : Bool) : Bool × Nat × Nat :=
  if next = expected ∧ cas_ok = true then (true, desired, expected) else (false, next, next)

/-- The body of the `while (result == 0)` loop of `timestamp_now`, run by one thread
with no other thread touching the cursor between the load and the compare-and-swap.
Returns `result` at the end of the body and the cursor afterwards. -/
def loop_body (next : Nat) (a : Attempt) : Nat × Nat :=
  let result := next
  let now_l := now a.ms_since_epoch
  if component_time result ≠ now_l then
    match compare_exchange_weak next result ((now_l + 1) % 2 ^ 64) a.cas_ok with
    | (true, next', _) => (now_l, next')
    | (false, next', _) => (0, next')
  else
    match compare_exchange_weak next result ((result + 1) % 2 ^ 64) a.cas_ok with
    | (true, next', result') => (result', next')
    | (false, next', _) => (0, next')

/-- Source: `timestamp_now`.  The list holds what the successive passes through the loop
find in their environment; the call returns the value, the cursor afterwards and the
unused part of the list, or `none` when the list ends before the loop does. -/
def timestamp_now : Nat → List Attempt → Option (Nat × Nat × List Attempt)
  | _, [] => none
  | next, a :: env =>
    if (loop_body next a).1 = 0 then timestamp_now (loop_body next a).2 env
    else some ((loop_body next a).1, (loop_body next a).2, env)

/-- Clock readings seen by passes whose compare-and-swap always succeeds. -/
def uncontended (readings : List Nat) : List Attempt :=
  readings.map (fun ms => Attempt.mk ms true)

/-- The first `n` calls of `timestamp_now` made one after another on one generator:
the values returned in call order, the final cursor and the unused environment. -/
def calls : Nat → Nat → List Attempt → Option (List Nat × Nat × List Attempt)
  | 0, next, env => some ([], next, env)
  | n + 1, next, env =>
    match timestamp_now next env with
    | none => none
    | some (r, next1, env1) =>
      match calls n next1 env1 with
      | none => none
      | some (rs, next2, env2) => some (r :: rs, next2, env2)

/-- The step of `generate` as the specification words it: with cursor `c` and clock
value `w`, return `w` and store `w + 1` when the time components differ, otherwise
return `c` and store `c + 1`.  Gives the returned value and the cursor afterwards. -/
def generate_spec (c w : Nat) : Nat × Nat :=
  if component_time c ≠ component_time w then (w, (w + 1) % 2 ^ 64) else (c, (c + 1) % 2 ^ 64)

/-! ## Several threads on one generator

The cursor is a `std::atomic<uint64_t>` accessed with the default (sequentially
consistent) ordering, so a run of several threads is an interleaving of their atomic
steps: the load `result = next`, the clock read `now ()`, and the
`compare_exchange_weak`.  The test `result == 0` and the return touch only locals and are
folded into the compare-and-swap step. -/

/-- Where a thread stands inside `timestamp_now`: before the load of `next`, before the
clock read (holding `result`), or before the compare-and-swap (holding `result` and
`now_l`). -/
inductive Pc where
  | at_load : Pc
  | at_now (result : Nat) : Pc
  | at_cas (result now_l : Nat) : Pc
deriving DecidableEq

/-- A thread that calls `timestamp_now` `calls_left` more times (the call in progress
included) and has received the values `returned`, oldest first. -/
structure Thread where
  pc : Pc
  calls_left : Nat
  returned : List Nat
deriving DecidableEq

/-- The shared generator (its cursor `next`) and the threads using it. -/
structure Shared where
  next : Nat
  threads : List Thread
deriving DecidableEq

/-- One scheduling decision: the thread that takes its next atomic step, with the
millisecond count the clock shows and whether a compare-and-swap finding the expected
value succeeds (read only by the steps that need them). -/
structure Event where
  thread : Nat
  env : Attempt
deriving DecidableEq

/-- End of a pass through the loop body with `result`: the loop test `result == 0`
sends the thread to another pass, any other value is returned by the call. -/
def end_of_pass (t : Thread) (result : Nat) : Thread :=
  if result = 0 then Thread.mk Pc.at_load t.calls_left t.returned
  else Thread.mk Pc.at_load (t.calls_left - 1) (t.returned ++ [result])

/-- One atomic step of `timestamp_now` by the thread named in the event. -/
def step (s : Shared) (e : Event) : Shared :=
  match s.threads[e.thread]? with
  | none => s
  | some t =>
    if t.calls_left = 0 then s
    else
      match t.pc with
      | Pc.at_load =>
        Shared.mk s.next (s.threads.set e.thread (Thread.mk (Pc.at_now s.next) t.calls_left t.returned))
      | Pc.at_now result =>
        Shared.mk s.next (s.threads.set e.thread
          (Thread.mk (Pc.at_cas result (now e.env.ms_since_epoch)) t.calls_left t.returned))
      | Pc.at_cas result now_l =>
        if component_time result ≠ now_l then
          match compare_exchange_weak s.next result ((now_l + 1) % 2 ^ 64) e.env.cas_ok with
          | (true, next', _) => Shared.mk next' (s.threads.set e.thread (end_of_pass t now_l))
          | (false, next', _) => Shared.mk next' (s.threads.set e.thread (end_of_pass t 0))
        else
          match compare_exchange_weak s.next result ((result + 1) % 2 ^ 64) e.env.cas_ok with
          | (true, next', result') =>
            Shared.mk next' (s.threads.set e.thread (end_of_pass t result'))
          | (false, next', _) => Shared.mk next' (s.threads.set e.thread (end_of_pass t 0))

/-- The run of a schedule. -/
def run (schedule : List Event) (s : Shared) : Shared := schedule.foldl step s

/-- A fresh generator (cursor 0) shared by `N` threads that each call `timestamp_now`
`M` times. -/
def shared_init (N M : Nat) : Shared :=
  Shared.mk 0 (List.replicate N (Thread.mk Pc.at_load M []))

/-- The three steps of one pass by thread `t`, the clock showing `ms`. -/
def one_pass (t ms : Nat) : List Event :=
  [Event.mk t (Attempt.mk ms true), Event.mk t (Attempt.mk ms true),
    Event.mk t (Attempt.mk ms true)]

/-- Thread `t` alone takes `k` passes in a row, the clock showing `ms` throughout. -/
def solo (t ms : Nat) : Nat → List Event
  | 0 => []
  | k + 1 => one_pass t ms ++ solo t ms k

end timestamp_generator

/-! ## Network selection (nano/lib/config.hpp) -/

/-- Source: `enum class nano_networks`, with the values test = 0, beta = 1 and
live = 2.  Each `rai_` enumerator has the value of the `nano_` enumerator of the same
network and so denotes the same network. -/
inductive nano_networks where
  | nano_test_network : nano_networks
  | nano_beta_network : nano_networks
  | nano_live_network : nano_networks
deriving DecidableEq

namespace nano_networks

/-- Source: `rai_test_network = 0`. -/
def rai_test_network : nano_networks := nano_test_network

/-- Source: `rai_beta_network = 1`. -/
def rai_beta_network : nano_networks := nano_beta_network

/-- Source: `rai_live_network = 2`. -/
def rai_live_network : nano_networks := nano_live_network

/-- The integral value of an enumerator. -/
def to_integral : nano_networks → Nat
  | nano_test_network => 0
  | nano_beta_network => 1
  | nano_live_network => 2

end nano_networks

/-- What `set_active_network` uses of the class `nano::error`, which is declared in the
header `nano/lib/errors.hpp` and not in `config.hpp`: the value of a default-constructed
`nano::error err;`, the value of `err` after `err = "..."`, and the conversion to `bool`
that tells whether a value holds an error.  The class is a parameter of the model. -/
structure error_interface (E : Type) where
  default_constructed : E
  assign_message : E → String → E
  is_error : E → Bool

/-- An instance of the interface: an error is the message it holds, if any. -/
def message_error : error_interface (Option String) :=
  error_interface.mk none (fun _ message_a => some message_a) Option.isSome

/-- Source: `class network_constants`, its non-static data members. -/
structure network_constants where
  current_network : nano_networks
  publish_threshold : Nat
  principal_weight_factor : Nat
  default_node_port : Nat
  default_rpc_port : Nat
  default_ipc_port : Nat
  default_websocket_port : Nat
  request_interval_ms : Nat
deriving DecidableEq

namespace network_constants

/-- Source: `publish_full_threshold{ 0xffffffc000000000 }`. -/
def publish_full_threshold : Nat := 0xffffffc000000000

/-- Source: `publish_beta_threshold{ 0xfffffc0000000000 }`. -/
def publish_beta_threshold : Nat := 0xfffffc0000000000

/-- Source: `publish_test_threshold{ 0xff00000000000000 }`. -/
def publish_test_threshold : Nat := 0xff00000000000000

/-- Source: `network ()`. -/
def network (nc : network_constants) : nano_networks := nc.current_network

/-- Source: `is_live_network ()`. -/
def is_live_network (nc : network_constants) : Bool :=
  decide (nc.current_network = nano_networks.nano_live_network)

/-- Source: `is_beta_network ()`. -/
def is_beta_network (nc : network_constants) : Bool :=
  decide (nc.current_network = nano_networks.nano_beta_network)

/-- Source: `is_test_network ()`. -/
def is_test_network (nc : network_constants) : Bool :=
  decide (nc.current_network = nano_networks.nano_test_network)

/-- Source: `get_current_network_as_string ()`. -/
def get_current_network_as_string (nc : network_constants) : String :=
  if nc.is_live_network then "live" else if nc.is_beta_network then "beta" else "test"

/-- Source: the constructor `network_constants (nano_networks network_a)`.  The member
initialiser sets `current_network`; the body then reads it through the `is_..._network`
members of the object under construction (`members_initialised`, whose other members are
not read) and assigns the remaining members.  `is_sanitizer_build` is the build-time
constant of that name. -/
def ctor (is_sanitizer_build : Bool) (network_a : nano_networks) : network_constants :=
  let members_initialised : network_constants := network_constants.mk network_a 0 0 0 0 0 0 0
  network_constants.mk network_a
    (if members_initialised.is_test_network then publish_test_threshold
     else if members_initialised.is_beta_network then publish_beta_threshold
     else publish_full_threshold)
    1000
    (if members_initialised.is_live_network then 2324
     else if members_initialised.is_beta_network then 54000 else 44000)
    (if members_initialised.is_live_network then 2325
     else if members_initialised.is_beta_network then 55000 else 45000)
    (if members_initialised.is_live_network then 7077
     else if members_initialised.is_beta_network then 56000 else 46000)
    (if members_initialised.is_live_network then 7078
     else if members_initialised.is_beta_network then 57000 else 47000)
    (if members_initialised.is_test_network then (if is_sanitizer_build then 100 else 20)
     else 500)

/-- Source: the default constructor `network_constants ()`, which delegates with the
static member `active_network`. -/
def default_ctor (is_sanitizer_build : Bool) (active_network : nano_networks) :
    network_constants :=
  ctor is_sanitizer_build active_network

/-- Source: `set_active_network (nano_networks network_a)`.  The static member
`active_network` is passed in and its new value returned. -/
def set_active_network_enum (_active_network : nano_networks) (network_a : nano_networks) :
    nano_networks :=
  network_a

/-- Source: `set_active_network (std::string network_a)`.  Returns `err` and the value of
the static member `active_network` afterwards. -/
def set_active_network {E : Type} (ops : error_interface E) (active_network : nano_networks)
    (network_a : String) : E × nano_networks :=
  let err := ops.default_constructed
  if network_a = "live" then (err, nano_networks.nano_live_network)
  else if network_a = "beta" then (err, nano_networks.nano_beta_network)
  else if network_a = "test" then (err, nano_networks.nano_test_network)
  else (ops.assign_message err "Invalid network. Valid values are live, beta and test.",
    active_network)

end network_constants

namespace timestamp_generator

/-! ## Arithmetic form of the bit operations -/

theorem time_mask_eq : time_mask = (2 ^ 44 - 1) <<< 20 := by decide

theorem count_mask_eq : count_mask = 2 ^ 20 - 1 := by decide

theorem component_count_eq (v : Nat) : component_count v = v % 1048576 := by
  unfold component_count
  rw [count_mask_eq]
  exact Nat.and_pow_two_sub_one_eq_mod v 20

theorem component_time_eq (v : Nat) (hv : v < 2 ^ 64) :
    component_time v = v / 1048576 * 1048576 := by
  unfold component_time
  rw [time_mask_eq]
  have h : v / 1048576 * 1048576 = (v >>> 20) <<< 20 := by
    rw [Nat.shiftRight_eq_div_pow, Nat.shiftLeft_eq]
  rw [h]
  apply Nat.eq_of_testBit_eq
  intro i
  simp only [Nat.testBit_and, Nat.testBit_shiftLeft, Nat.testBit_shiftRight,
    Nat.testBit_two_pow_sub_one]
  by_cases h20 : 20 ≤ i
  · have e : 20 + (i - 20) = i := by omega
    by_cases h64 : i < 64
    · have : i - 20 < 44 := by omega
      simp [h20, this, e]
    · have : v.testBit i = false := by
        apply Nat.testBit_lt_two_pow
        calc v < 2 ^ 64 := hv
          _ ≤ 2 ^ i := Nat.pow_le_pow_right (by decide) (by omega)
      simp [this, e]
  · simp [h20]

theorem timestamp_from_ms_eq (x : Nat) :
    timestamp_from_ms x = (x % 17592186044416) * 1048576 := by
  unfold timestamp_from_ms count_bits
  rw [Nat.shiftLeft_eq]
  omega

theorem now_eq (ms : Nat) : now ms = (ms % 17592186044416) * 1048576 :=
  timestamp_from_ms_eq ms

theorem now_lt (ms : Nat) : now ms < 2 ^ 64 := by
  rw [now_eq]; omega

theorem component_time_now (ms : Nat) : component_time (now ms) = now ms := by
  rw [component_time_eq _ (now_lt ms), now_eq]; omega

/-! ## One call of `timestamp_now` -/

/-- One pass of the loop when the compare-and-swap succeeds. -/
theorem loop_body_uncontended (c ms : Nat) :
    loop_body c (Attempt.mk ms true)
      = if component_time c ≠ now ms then (now ms, (now ms + 1) % 2 ^ 64)
        else (c, (c + 1) % 2 ^ 64) := by
  simp only [loop_body, compare_exchange_weak]
  split <;> simp

/-- One pass of the loop when the compare-and-swap fails: nothing is stored and the
pass yields the retry marker `0`. -/
theorem loop_body_cas_failed (c ms : Nat) :
    loop_body c (Attempt.mk ms false) = (0, c) := by
  simp only [loop_body, compare_exchange_weak]
  split <;> simp

theorem uncontended_cons (ms : Nat) (rest : List Nat) :
    uncontended (ms :: rest)
      = Attempt.mk ms true :: uncontended rest := rfl

theorem uncontended_append (xs ys : List Nat) :
    uncontended (xs ++ ys) = uncontended xs ++ uncontended ys := by
  simp [uncontended]

theorem now_add_one_mod (ms : Nat) : (now ms + 1) % 2 ^ 64 = now ms + 1 := by
  rw [now_eq]; omega

/-- A call whose passes all succeed in their compare-and-swap, unfolded by one pass. -/
theorem timestamp_now_uncontended_cons (c ms : Nat) (rest : List Nat) :
    timestamp_now c (uncontended (ms :: rest))
      = if component_time c = now ms then
          (if c = 0 then timestamp_now 1 (uncontended rest)
           else some (c, (c + 1) % 2 ^ 64, uncontended rest))
        else
          (if now ms = 0 then timestamp_now 1 (uncontended rest)
           else some (now ms, now ms + 1, uncontended rest)) := by
  rw [uncontended_cons, timestamp_now, loop_body_uncontended]
  by_cases h : component_time c = now ms
  · rw [if_neg (not_not.mpr h), if_pos h]
    by_cases h0 : c = 0
    · simp [h0]
    · simp [h0]
  · rw [if_pos h, if_neg h, now_add_one_mod]
    by_cases h0 : now ms = 0
    · simp [h0]
    · simp [h0]

theorem component_time_one : component_time 1 = 0 := by decide

/-- The second pass of a call always returns: it starts from cursor `1`. -/
theorem timestamp_now_from_one (ms : Nat) (rest : List Nat) :
    timestamp_now 1 (uncontended (ms :: rest))
      = if now ms = 0 then some (1, 2, uncontended rest)
        else some (now ms, now ms + 1, uncontended rest) := by
  rw [timestamp_now_uncontended_cons, component_time_one]
  by_cases h0 : now ms = 0
  · simp [h0]
  · have : ¬ (0 = now ms) := fun h => h0 h.symm
    simp [h0, this]

theorem timestamp_now_same_ms (c ms : Nat) (rest : List Nat)
    (h : component_time c = now ms) (h0 : c ≠ 0) :
    timestamp_now c (uncontended (ms :: rest))
      = some (c, (c + 1) % 2 ^ 64, uncontended rest) := by
  rw [timestamp_now_uncontended_cons, if_pos h, if_neg h0]

theorem timestamp_now_new_ms (c ms : Nat) (rest : List Nat)
    (h : component_time c ≠ now ms) (h0 : now ms ≠ 0) :
    timestamp_now c (uncontended (ms :: rest))
      = some (now ms, now ms + 1, uncontended rest) := by
  rw [timestamp_now_uncontended_cons, if_neg h, if_neg h0]

theorem component_time_zero : component_time 0 = 0 := by decide

theorem now_eq_shift (ms : Nat) (h : ms < 2 ^ 44) : now ms = ms <<< 20 := by
  rw [now_eq, Nat.shiftLeft_eq]; omega

/-- The time component of a cursor that lies in the millisecond window of `t`. -/
theorem component_time_window (t j : Nat) (ht : t % 1048576 = 0) (hj : j < 1048576)
    (hb : t + j < 2 ^ 64) : component_time (t + j) = t := by
  rw [component_time_eq _ hb]; omega

/-! ## Claims about one call or two consecutive calls -/

/-- C8. First two values of a fresh generator: with the cursor at 0 and the clock
frozen at a millisecond `ms` with `1 ≤ ms < 2^44`, the first call returns `ms << 20`
and the second returns `(ms << 20) + 1`. -/
theorem fresh_generator_first_two (ms : Nat) (h1 : 1 ≤ ms) (h2 : ms < 2 ^ 44)
    (rest : List Nat) :
    calls 2 0 (uncontended (ms :: ms :: rest))
      = some ([ms <<< 20, (ms <<< 20) + 1], (ms <<< 20) + 2, uncontended rest) := by
  have hn : now ms = ms <<< 20 := now_eq_shift ms h2
  have hv : ms <<< 20 = ms * 1048576 := by rw [Nat.shiftLeft_eq]
  have hne : now ms ≠ 0 := by rw [hn, hv]; omega
  have first : timestamp_now 0 (uncontended (ms :: ms :: rest))
      = some (ms <<< 20, (ms <<< 20) + 1, uncontended (ms :: rest)) := by
    rw [timestamp_now_new_ms 0 ms _ (by rw [component_time_zero]; exact fun e => hne e.symm) hne,
      hn]
  have second : timestamp_now ((ms <<< 20) + 1) (uncontended (ms :: rest))
      = some ((ms <<< 20) + 1, (ms <<< 20) + 2, uncontended rest) := by
    have ht : component_time ((ms <<< 20) + 1) = now ms := by
      rw [hn, hv]
      exact component_time_window _ 1 (by omega) (by omega) (by omega)
    rw [timestamp_now_same_ms _ ms _ ht (by omega)]
    have : ((ms <<< 20) + 1 + 1) % 2 ^ 64 = (ms <<< 20) + 2 := by rw [hv]; omega
    rw [this]
  simp only [calls, first, second]

/-- C8, at the millisecond value 1,700,000,000,000 of the specification's scenario. -/
theorem fresh_generator_first_two_witness :
    calls 2 0 (uncontended [1700000000000, 1700000000000])
      = some ([1700000000000 <<< 20, (1700000000000 <<< 20) + 1],
          (1700000000000 <<< 20) + 2, uncontended []) :=
  fresh_generator_first_two 1700000000000 (by decide) (by decide) []

/-- Every uncontended call returns once two clock readings are available. -/
theorem timestamp_now_total (c : Nat) (readings : List Nat) (h : 2 ≤ readings.length) :
    (timestamp_now c (uncontended readings)).isSome = true := by
  match readings, h with
  | m1 :: m2 :: rest, _ =>
    rw [timestamp_now_uncontended_cons, timestamp_now_from_one]
    split_ifs <;> rfl

/-- Whatever the compare-and-swap outcomes, a value that is returned comes from a pass
whose compare-and-swap succeeded, and its time component is the clock value of
that pass. -/
theorem timestamp_now_returns_pass (env : List Attempt) :
    ∀ c v c' rest, timestamp_now c env = some (v, c', rest) →
      ∃ pre a, env = pre ++ a :: rest ∧ a.cas_ok = true ∧
        component_time v = timestamp_from_ms a.ms_since_epoch := by
  induction env with
  | nil => intro c v c' rest h; simp [timestamp_now] at h
  | cons a env ih =>
    intro c v c' rest h
    rw [timestamp_now] at h
    by_cases h0 : (loop_body c a).1 = 0
    · rw [if_pos h0] at h
      obtain ⟨pre, b, e, hb, ht⟩ := ih _ _ _ _ h
      exact ⟨a :: pre, b, by rw [e]; rfl, hb, ht⟩
    · rw [if_neg h0] at h
      simp only [Option.some.injEq, Prod.mk.injEq] at h
      obtain ⟨hv, _, hr⟩ := h
      refine ⟨[], a, by rw [hr]; rfl, ?_, ?_⟩
      · cases a with
        | mk ms ok =>
          cases ok with
          | true => rfl
          | false => rw [loop_body_cas_failed] at h0; exact absurd rfl h0
      · cases a with
        | mk ms ok =>
          cases ok with
          | false => rw [loop_body_cas_failed] at h0; exact absurd rfl h0
          | true =>
            rw [loop_body_uncontended] at hv
            show component_time v = now ms
            by_cases hb : component_time c = now ms
            · rw [if_neg (not_not.mpr hb)] at hv
              rw [← hv]; exact hb
            · rw [if_pos hb] at hv
              rw [← hv]; exact component_time_now ms

/-- C10. Decomposition round trip: for every millisecond value `x`, the time component
of `timestamp_from_ms x` is `timestamp_from_ms x` itself and its count component is 0,
the shift being taken modulo 2^64. -/
theorem decomposition_round_trip (x : Nat) :
    component_time (timestamp_from_ms x) = timestamp_from_ms x ∧
      component_count (timestamp_from_ms x) = 0 := by
  constructor
  · exact component_time_now x
  · rw [component_count_eq, timestamp_from_ms_eq]; omega

/-- C5. Field independence: a value returned by `timestamp_now` has as time component
`timestamp_from_ms ms` for the millisecond `ms` read in the pass that succeeded (the last
reading the call consumed), and a count component below 2^20; and the call does return
when its compare-and-swaps succeed and two clock readings are available. -/
theorem field_independence (c : Nat) :
    (∀ env v c' rest, timestamp_now c env = some (v, c', rest) →
      ∃ pre a, env = pre ++ a :: rest ∧ a.cas_ok = true ∧
        component_time v = timestamp_from_ms a.ms_since_epoch ∧
        component_count v < 2 ^ 20) ∧
    (∀ m1 m2 readings, (timestamp_now c (uncontended (m1 :: m2 :: readings))).isSome = true) := by
  constructor
  · intro env v c' rest h
    obtain ⟨pre, a, e, ha, ht⟩ := timestamp_now_returns_pass env c v c' rest h
    refine ⟨pre, a, e, ha, ht, ?_⟩
    rw [component_count_eq]; omega
  · intro m1 m2 readings
    exact timestamp_now_total c (m1 :: m2 :: readings) (by simp)

/-- C5 on a fresh generator whose clock reads millisecond 0 and then millisecond 5: the
first pass yields 0 and is repeated, the value returned carries millisecond 5, the one
read in the pass that succeeded. -/
theorem field_independence_witness :
    ∃ pre a, uncontended [0, 5] = pre ++ a :: uncontended [] ∧ a.cas_ok = true ∧
      component_time 5242880 = timestamp_from_ms a.ms_since_epoch ∧
      component_count 5242880 < 2 ^ 20 :=
  (field_independence 0).1 (uncontended [0, 5]) 5242880 5242881 (uncontended []) (by decide)

/-- The first call on a generator whose clock stays at `ms`: it returns a non-zero value
in the window of `ms`, stores that value plus one, and uses one or two readings. -/
theorem timestamp_now_frozen (c ms : Nat) (rest : List Nat) :
    ∃ r1 env1, timestamp_now c (uncontended (ms :: ms :: rest))
        = some (r1, (r1 + 1) % 2 ^ 64, env1) ∧
      (env1 = uncontended (ms :: rest) ∨ env1 = uncontended rest) ∧
      r1 ≠ 0 ∧ component_time r1 = now ms ∧ (c < 2 ^ 64 → r1 < 2 ^ 64) := by
  have hlt := now_lt ms
  rw [timestamp_now_uncontended_cons, timestamp_now_from_one]
  by_cases h : component_time c = now ms
  · rw [if_pos h]
    by_cases h0 : c = 0
    · rw [if_pos h0]
      have hz : now ms = 0 := by rw [← h, h0, component_time_zero]
      rw [if_pos hz]
      exact ⟨1, _, rfl, Or.inr rfl, by decide, by rw [hz]; decide, fun _ => by decide⟩
    · rw [if_neg h0]
      exact ⟨c, _, rfl, Or.inl rfl, h0, h, fun hc => hc⟩
  · rw [if_neg h]
    by_cases hz : now ms = 0
    · rw [if_pos hz, if_pos hz]
      exact ⟨1, _, rfl, Or.inr rfl, by decide, by rw [hz]; decide, fun _ => by decide⟩
    · rw [if_neg hz]
      refine ⟨now ms, _, ?_, Or.inl rfl, hz, component_time_now ms, fun _ => hlt⟩
      rw [now_add_one_mod]

/-- C4, as the claim states it, fails: on a fresh generator reading millisecond 0 the
stated step would return 0 and store 1, but the call runs a second pass and returns 1,
leaving the cursor at 2. -/
theorem generate_spec_fails_at_zero :
    generate_spec 0 (now 0) = (0, 1) ∧
    timestamp_now 0 (uncontended [0, 0]) = some (1, 2, uncontended []) ∧
    timestamp_now 0 (uncontended [0, 0])
      ≠ some ((generate_spec 0 (now 0)).1, (generate_spec 0 (now 0)).2, uncontended [0]) := by
  decide

/-- C4, amended. With `v` the value the stated step selects (the clock value `w` when the
time components of cursor and `w` differ, the cursor `c` otherwise): when `v` is not 0
the uncontended call returns `v` and leaves the cursor at `v + 1`; when `v` is 0 the
pass stores 1 and the loop runs again, and that second pass returns the next clock
value (or 1 when that clock value is 0) and stores the returned value plus one. -/
theorem timestamp_now_algorithm (c ms : Nat) (rest : List Nat) :
    timestamp_now c (uncontended (ms :: rest))
      = (if (generate_spec c (now ms)).1 = 0 then timestamp_now 1 (uncontended rest)
         else some ((generate_spec c (now ms)).1, (generate_spec c (now ms)).2,
           uncontended rest)) ∧
    ∀ ms2 rest2, timestamp_now 1 (uncontended (ms2 :: rest2))
      = if now ms2 = 0 then some (1, 2, uncontended rest2)
        else some (now ms2, now ms2 + 1, uncontended rest2) := by
  refine ⟨?_, timestamp_now_from_one⟩
  rw [timestamp_now_uncontended_cons, generate_spec, component_time_now]
  by_cases h : component_time c = now ms
  · rw [if_pos h, if_neg (not_not.mpr h)]
  · rw [if_neg h, if_pos h, now_add_one_mod]

/-- The carry of the count field seen from the cursor that precedes it: from the cursor
`2^21 - 1` (millisecond 1, count `2^20 - 1`) two calls that both read millisecond 1
return `2^21 - 1` and then `2^20`, which is not the first value plus one. -/
theorem same_millisecond_increment_fails_when_count_full :
    calls 2 2097151 (uncontended [1, 1]) = some ([2097151, 1048576], 1048577, uncontended []) ∧
    component_time 2097151 = timestamp_from_ms 1 ∧
    component_time 1048576 = timestamp_from_ms 1 ∧
    1048576 ≠ 2097151 + 1 := by
  decide

/-- While the count field has room the increment holds: two consecutive uncontended
calls that both read the same millisecond `ms` return `r1` and then `r2`, and
`r2 = r1 + 1` provided the count component of `r1` is not `2^20 - 1`. -/
theorem same_millisecond_increment (c ms n : Nat) (hc : c < 2 ^ 64) (hn : 4 ≤ n) :
    ∃ r1 r2 c' env', calls 2 c (uncontended (List.replicate n ms)) = some ([r1, r2], c', env') ∧
      (component_count r1 ≠ 2 ^ 20 - 1 → r2 = r1 + 1) := by
  obtain ⟨k, rfl⟩ : ∃ k, n = k + 4 := ⟨n - 4, by omega⟩
  simp only [List.replicate_succ]
  obtain ⟨r1, env1, h1, henv, hr0, hrt, hrlt⟩ := timestamp_now_frozen c ms (ms :: ms :: List.replicate k ms)
  have hlt := hrlt hc
  have hnow := now_eq ms
  rw [component_time_eq r1 hlt] at hrt
  by_cases hfull : component_count r1 = 2 ^ 20 - 1
  · -- the count field is full: the second call still returns
    have hsome : ∃ x, timestamp_now ((r1 + 1) % 2 ^ 64) env1 = some x := by
      rw [← Option.isSome_iff_exists]
      rcases henv with e | e <;> rw [e] <;> exact timestamp_now_total _ _ (by simp)
    obtain ⟨⟨r2, c2, env2⟩, h2⟩ := hsome
    exact ⟨r1, r2, c2, env2, by simp only [calls, h1, h2], fun h => absurd hfull h⟩
  · rw [component_count_eq] at hfull
    have hc1 : (r1 + 1) % 2 ^ 64 = r1 + 1 := by omega
    have ht : component_time (r1 + 1) = now ms := by
      rw [component_time_eq _ (by omega)]; omega
    have h2 : ∃ env2, timestamp_now (r1 + 1) env1 = some (r1 + 1, (r1 + 1 + 1) % 2 ^ 64, env2) := by
      rcases henv with e | e <;> rw [e]
      · exact ⟨_, timestamp_now_same_ms _ ms _ ht (by omega)⟩
      · exact ⟨_, timestamp_now_same_ms _ ms _ ht (by omega)⟩
    obtain ⟨env2, h2⟩ := h2
    rw [hc1] at h1
    exact ⟨r1, r1 + 1, (r1 + 1 + 1) % 2 ^ 64, env2, by simp only [calls, h1, h2], fun _ => rfl⟩

/-- The increment on a fresh generator with the clock frozen at millisecond 7. -/
theorem same_millisecond_increment_witness :
    ∃ r1 r2 c' env', calls 2 0 (uncontended (List.replicate 4 7)) = some ([r1, r2], c', env') ∧
      (component_count r1 ≠ 2 ^ 20 - 1 → r2 = r1 + 1) :=
  same_millisecond_increment 0 7 4 (by decide) (by decide)

/-- C7. Millisecond-crossing reset: when one uncontended call reads millisecond `M1` and
the next call on the same generator reads `M2` with `M1 < M2 < 2^44`, the second call
returns `M2 << 20`: count component 0 and time component `timestamp_from_ms M2`,
whatever the cursor was and also when the first call filled the count field. -/
theorem millisecond_crossing_reset (c M1 M2 : Nat) (hc : c < 2 ^ 64) (h12 : M1 < M2)
    (h2 : M2 < 2 ^ 44) (rest1 rest2 : List Nat) :
    ∃ r1 c1 env1, timestamp_now c (uncontended (M1 :: M1 :: rest1)) = some (r1, c1, env1) ∧
      timestamp_now c1 (uncontended (M2 :: rest2))
        = some (M2 <<< 20, (M2 <<< 20) + 1, uncontended rest2) ∧
      component_count (M2 <<< 20) = 0 ∧
      component_time (M2 <<< 20) = timestamp_from_ms M2 := by
  obtain ⟨r1, env1, hcall1, _, hr0, hrt, hrlt⟩ := timestamp_now_frozen c M1 rest1
  have hlt := hrlt hc
  have hn2 : now M2 = M2 <<< 20 := now_eq_shift M2 h2
  have hv2 : M2 <<< 20 = M2 * 1048576 := by rw [Nat.shiftLeft_eq]
  rw [component_time_eq r1 hlt, now_eq] at hrt
  have hc1 : (r1 + 1) % 2 ^ 64 = r1 + 1 := by omega
  refine ⟨r1, (r1 + 1) % 2 ^ 64, env1, hcall1, ?_, ?_, ?_⟩
  · rw [hc1]
    by_cases h : component_time (r1 + 1) = now M2
    · rw [timestamp_now_same_ms _ M2 _ h (by omega)]
      rw [component_time_eq _ (by omega), hn2, hv2] at h
      have e : r1 + 1 = M2 <<< 20 := by rw [hv2]; omega
      have e2 : (r1 + 1 + 1) % 2 ^ 64 = (M2 <<< 20) + 1 := by rw [hv2]; omega
      rw [e2, e]
    · rw [timestamp_now_new_ms _ M2 _ h (by rw [hn2, hv2]; omega), hn2]
  · rw [component_count_eq, hv2]; omega
  · rw [← hn2]; exact component_time_now M2

/-- C7 on a cursor whose count field is full: millisecond 1 then millisecond 2. -/
theorem millisecond_crossing_reset_witness :
    ∃ r1 c1 env1, timestamp_now 2097151 (uncontended [1, 1]) = some (r1, c1, env1) ∧
      timestamp_now c1 (uncontended [2])
        = some (2 <<< 20, (2 <<< 20) + 1, uncontended []) ∧
      component_count (2 <<< 20) = 0 ∧
      component_time (2 <<< 20) = timestamp_from_ms 2 :=
  millisecond_crossing_reset 2097151 1 2 (by decide) (by decide) (by decide) [] []

/-- C9. Clock regression is not clamped: when one uncontended call reads millisecond
`M1` and returns `r1`, and the next call reads an earlier millisecond `M2 < M1 < 2^44`
and returns `r2`, then the time component of `r2` is `timestamp_from_ms M2`, which is
below the time component of `r1`, and `r2 < r1`. -/
theorem clock_regression_not_clamped (c M1 M2 : Nat) (hc : c < 2 ^ 64) (h21 : M2 < M1)
    (h1 : M1 < 2 ^ 44) (rest1 rest2 : List Nat) :
    ∃ r1 c1, timestamp_now c (uncontended (M1 :: rest1)) = some (r1, c1, uncontended rest1) ∧
      ∃ r2 c2 env2, timestamp_now c1 (uncontended (M2 :: M2 :: rest2)) = some (r2, c2, env2) ∧
        component_time r2 = timestamp_from_ms M2 ∧
        timestamp_from_ms M2 < component_time r1 ∧
        r2 < r1 := by
  have hn1 := now_eq M1
  have hn2 := now_eq M2
  have key : ∀ r1, r1 < 2 ^ 64 → component_time r1 = now M1 →
      ∃ r2 c2 env2, timestamp_now ((r1 + 1) % 2 ^ 64) (uncontended (M2 :: M2 :: rest2))
          = some (r2, c2, env2) ∧
        component_time r2 = timestamp_from_ms M2 ∧
        timestamp_from_ms M2 < component_time r1 ∧ r2 < r1 := by
    intro r1 hr1 ht1
    obtain ⟨r2, env2, hcall2, _, _, hrt2, hrlt2⟩ :=
      timestamp_now_frozen ((r1 + 1) % 2 ^ 64) M2 rest2
    have hlt2 := hrlt2 (Nat.mod_lt _ (by decide))
    refine ⟨r2, _, env2, hcall2, hrt2, ?_, ?_⟩
    · show now M2 < component_time r1
      rw [ht1]; omega
    · rw [component_time_eq r2 hlt2] at hrt2
      rw [component_time_eq r1 hr1] at ht1
      omega
  by_cases h : component_time c = now M1
  · have hc0 : c ≠ 0 := by
      intro e
      rw [e, component_time_zero] at h
      omega
    exact ⟨c, (c + 1) % 2 ^ 64, timestamp_now_same_ms c M1 rest1 h hc0, key c hc h⟩
  · have hz : now M1 ≠ 0 := by omega
    refine ⟨now M1, now M1 + 1, timestamp_now_new_ms c M1 rest1 h hz, ?_⟩
    have := key (now M1) (now_lt M1) (component_time_now M1)
    rw [now_add_one_mod] at this
    exact this

/-- C9 with the clock set back by 5 ms between two calls on a fresh generator. -/
theorem clock_regression_not_clamped_witness :
    ∃ r1 c1, timestamp_now 0 (uncontended [1700000000005]) = some (r1, c1, uncontended []) ∧
      ∃ r2 c2 env2, timestamp_now c1 (uncontended [1700000000000, 1700000000000])
          = some (r2, c2, env2) ∧
        component_time r2 = timestamp_from_ms 1700000000000 ∧
        timestamp_from_ms 1700000000000 < component_time r1 ∧
        r2 < r1 :=
  clock_regression_not_clamped 0 1700000000005 1700000000000 (by decide) (by decide)
    (by decide) [] []

/-! ## Overflow of the count field -/

/-- Calls made one after another compose. -/
theorem calls_append (a b : Nat) :
    ∀ c env rs1 c1 env1 rs2 c2 env2, calls a c env = some (rs1, c1, env1) →
      calls b c1 env1 = some (rs2, c2, env2) →
      calls (a + b) c env = some (rs1 ++ rs2, c2, env2) := by
  induction a with
  | zero =>
    intro c env rs1 c1 env1 rs2 c2 env2 h1 h2
    simp only [calls, Option.some.injEq, Prod.mk.injEq] at h1
    obtain ⟨e1, e2, e3⟩ := h1
    subst e1 e2 e3
    simpa using h2
  | succ a ih =>
    intro c env rs1 c1 env1 rs2 c2 env2 h1 h2
    rw [Nat.succ_add]
    rw [calls] at h1 ⊢
    cases ht : timestamp_now c env with
    | none => rw [ht] at h1; simp at h1
    | some x =>
      obtain ⟨r, c', env'⟩ := x
      rw [ht] at h1
      simp only at h1 ⊢
      cases hc : calls a c' env' with
      | none => rw [hc] at h1; simp at h1
      | some y =>
        obtain ⟨rs, cb, envb⟩ := y
        rw [hc] at h1
        simp only [Option.some.injEq, Prod.mk.injEq] at h1
        obtain ⟨e1, e2, e3⟩ := h1
        subst e1 e2 e3
        rw [ih c' env' rs cb envb rs2 c2 env2 hc h2]
        rfl

/-- While the clock stays at `ms` and the count field has room, each call returns the
cursor and advances it by one. -/
theorem calls_frozen_window (ms : Nat) (h1 : 1 ≤ ms) (h2 : ms < 2 ^ 44 - 1) (rest : List Nat)
    (k : Nat) : ∀ j, j + k ≤ 1048576 →
      calls k (ms * 1048576 + j) (uncontended (List.replicate k ms ++ rest))
        = some (List.range' (ms * 1048576 + j) k, ms * 1048576 + j + k, uncontended rest) := by
  have hn : now ms = ms * 1048576 := by rw [now_eq]; omega
  induction k with
  | zero => intro j _; simp [calls]
  | succ k ih =>
    intro j hj
    have ht : component_time (ms * 1048576 + j) = now ms := by
      rw [hn]; exact component_time_window _ j (by omega) (by omega) (by omega)
    have hstep : timestamp_now (ms * 1048576 + j) (uncontended (ms :: (List.replicate k ms ++ rest)))
        = some (ms * 1048576 + j, ms * 1048576 + (j + 1), uncontended (List.replicate k ms ++ rest)) := by
      rw [timestamp_now_same_ms _ ms _ ht (by omega)]
      have : (ms * 1048576 + j + 1) % 2 ^ 64 = ms * 1048576 + (j + 1) := by omega
      rw [this]
    rw [List.replicate_succ, List.cons_append, calls, hstep]
    simp only
    rw [ih (j + 1) (by omega)]
    simp only [List.range'_succ, Option.some.injEq, Prod.mk.injEq, List.cons.injEq, true_and,
      and_true]
    constructor
    · rw [Nat.add_assoc]
    · omega

/-- A fresh generator whose clock stays at `ms` returns `ms << 20`, `(ms << 20) + 1`, ...
for as long as the count field has room. -/
theorem calls_fresh_frozen (ms : Nat) (h1 : 1 ≤ ms) (h2 : ms < 2 ^ 44 - 1) (rest : List Nat)
    (k : Nat) (hk : k + 1 ≤ 1048576) :
    calls (1 + k) 0 (uncontended (ms :: (List.replicate k ms ++ rest)))
      = some (ms * 1048576 :: List.range' (ms * 1048576 + 1) k, ms * 1048576 + 1 + k,
          uncontended rest) := by
  have hn : now ms = ms * 1048576 := by rw [now_eq]; omega
  have first : calls 1 0 (uncontended (ms :: (List.replicate k ms ++ rest)))
      = some ([ms * 1048576], ms * 1048576 + 1, uncontended (List.replicate k ms ++ rest)) := by
    have hne : now ms ≠ 0 := by omega
    have : timestamp_now 0 (uncontended (ms :: (List.replicate k ms ++ rest)))
        = some (now ms, now ms + 1, uncontended (List.replicate k ms ++ rest)) :=
      timestamp_now_new_ms 0 ms _ (by rw [component_time_zero]; omega) hne
    rw [hn] at this
    simp only [calls, this]
  exact calls_append 1 k _ _ _ _ _ _ _ _ first (calls_frozen_window ms h1 h2 rest k 1 (by omega))

/-- The call that follows `2^20` calls in one millisecond `ms`: the cursor has carried
into the time field, the time components differ, and the call returns `ms << 20`
a second time. -/
theorem timestamp_now_after_carry (ms : Nat) (h1 : 1 ≤ ms) (h2 : ms < 2 ^ 44 - 1)
    (rest : List Nat) :
    timestamp_now (ms * 1048576 + 1048576) (uncontended (ms :: rest))
      = some (ms * 1048576, ms * 1048576 + 1, uncontended rest) := by
  have hn : now ms = ms * 1048576 := by rw [now_eq]; omega
  have ht : component_time (ms * 1048576 + 1048576) ≠ now ms := by
    rw [component_time_eq _ (by omega), hn]; omega
  rw [timestamp_now_new_ms _ ms _ ht (by omega), hn]

/-- The values of `2^20 + 1` calls on a fresh generator whose clock stays at `ms`. -/
theorem calls_past_carry (ms : Nat) (h1 : 1 ≤ ms) (h2 : ms < 2 ^ 44 - 1) :
    calls 1048577 0 (uncontended (List.replicate 1048577 ms))
      = some (ms * 1048576 :: (List.range' (ms * 1048576 + 1) 1048575 ++ [ms * 1048576]),
          ms * 1048576 + 1, uncontended []) := by
  have hrep : List.replicate 1048577 ms = ms :: (List.replicate 1048575 ms ++ [ms]) := by
    have e : (1048577 : Nat) = (1048575 + 1) + 1 := by norm_num
    rw [e, List.replicate_succ, List.replicate_succ']
  have hfirst := calls_fresh_frozen ms h1 h2 [ms] 1048575 (by omega)
  have hlast : calls 1 (ms * 1048576 + 1 + 1048575) (uncontended [ms])
      = some ([ms * 1048576], ms * 1048576 + 1, uncontended []) := by
    have e : ms * 1048576 + 1 + 1048575 = ms * 1048576 + 1048576 := by omega
    rw [e, calls, timestamp_now_after_carry ms h1 h2 []]
    rfl
  have hcat := calls_append (1 + 1048575) 1 _ _ _ _ _ _ _ _ hfirst hlast
  have e : 1 + 1048575 + 1 = 1048577 := by norm_num
  rw [e] at hcat
  rw [hrep, hcat, List.cons_append]

/-- The run behind C1 and C2: a fresh generator, the clock at millisecond
1,700,000,000,000 for `2^20 + 1` calls.  The first `2^20` calls use up the count field,
the last call returns the first value again. -/
theorem calls_past_carry_scenario :
    calls 1048577 0 (uncontended (List.replicate 1048577 1700000000000))
      = some (1782579200000000000 ::
            (List.range' 1782579200000000001 1048575 ++ [1782579200000000000]),
          1782579200000000001, uncontended []) := by
  have h := calls_past_carry 1700000000000 (by norm_num) (by norm_num)
  have e1 : 1700000000000 * 1048576 = 1782579200000000000 := by norm_num
  have e2 : 1782579200000000000 + 1 = 1782579200000000001 := by norm_num
  rw [e1, e2] at h
  exact h

/-- C1 fails on the code: on a fresh generator whose clock reads millisecond
1,700,000,000,000 at each of `2^20 + 1` consecutive uncontended calls (readings that never
decrease), the last call returns the value of the first call, so the returned values
are not pairwise distinct. -/
theorem uniqueness_fails_past_count_overflow :
    ∃ rs c env,
      calls 1048577 0 (uncontended (List.replicate 1048577 1700000000000)) = some (rs, c, env) ∧
      rs = 1782579200000000000 ::
            (List.range' 1782579200000000001 1048575 ++ [1782579200000000000]) ∧
      ¬ rs.Nodup := by
  refine ⟨_, _, _, calls_past_carry_scenario, rfl, ?_⟩
  intro h
  exact (List.nodup_cons.mp h).1 (List.mem_append_right _ (List.mem_singleton_self _))

/-- C2 fails on the code: in the same run the values are not strictly increasing, the
value returned by call `2^20 + 1` is the value of call 1, below everything returned in
between. -/
theorem monotonicity_fails_past_count_overflow :
    ∃ rs c env,
      calls 1048577 0 (uncontended (List.replicate 1048577 1700000000000)) = some (rs, c, env) ∧
      rs = 1782579200000000000 ::
            (List.range' 1782579200000000001 1048575 ++ [1782579200000000000]) ∧
      ¬ List.Chain' (fun a b => a < b) rs := by
  refine ⟨_, _, _, calls_past_carry_scenario, rfl, ?_⟩
  intro h
  rw [List.chain'_iff_pairwise] at h
  have hlt := (List.pairwise_cons.mp h).1 1782579200000000000
    (List.mem_append_right _ (List.mem_singleton_self _))
  exact Nat.lt_irrefl _ hlt

/-- C6 fails on the code: in the same run calls `2^20` and `2^20 + 1` are consecutive,
both read millisecond 1,700,000,000,000 and both return a value of that millisecond; the
first of the two returns `(1700000000000 << 20) + 2^20 - 1` and the second returns
`1700000000000 << 20`, the value of call 1, which is not the first of the two plus one. -/
theorem same_millisecond_increment_fails_past_count_overflow :
    ∃ earlier c env,
      calls 1048577 0 (uncontended (List.replicate 1048577 1700000000000))
        = some (earlier ++ [1782579200001048575, 1782579200000000000], c, env) ∧
      earlier.length = 1048575 ∧
      component_time 1782579200001048575 = timestamp_from_ms 1700000000000 ∧
      component_time 1782579200000000000 = timestamp_from_ms 1700000000000 ∧
      1782579200000000000 ≠ 1782579200001048575 + 1 := by
  have h := calls_past_carry_scenario
  have hsplit := @List.range'_concat 1 1782579200000000001 1048574
  have e1 : 1048574 + 1 = 1048575 := by norm_num
  have e2 : 1782579200000000001 + 1 * 1048574 = 1782579200001048575 := by norm_num
  rw [e1, e2] at hsplit
  rw [hsplit, List.append_assoc, List.singleton_append, ← List.cons_append] at h
  refine ⟨_, _, _, h, ?_, by decide, by decide, by decide⟩
  rw [List.length_cons, List.length_range']

/-! ## Several threads: one thread running undisturbed -/

theorem getElem?_set_same (threads : List Thread) (t : Nat) (a b : Thread)
    (h : threads[t]? = some a) : (threads.set t b)[t]? = some b := by
  have hlt : t < threads.length := by
    rcases List.getElem?_eq_some.mp h with ⟨hl, _⟩
    exact hl
  exact List.getElem?_set_self hlt

/-- Three consecutive steps of one thread with no step of another thread in between
are one pass through the loop body as `loop_body` describes it. -/
theorem run_one_pass (threads : List Thread) (c t ms n : Nat) (ret : List Nat)
    (h : threads[t]? = some (Thread.mk Pc.at_load n ret)) (hn : n ≠ 0) :
    run (one_pass t ms) (Shared.mk c threads)
      = Shared.mk (loop_body c (Attempt.mk ms true)).2
          (threads.set t
            (end_of_pass (Thread.mk Pc.at_load n ret) (loop_body c (Attempt.mk ms true)).1)) := by
  have h1 := getElem?_set_same threads t _ (Thread.mk (Pc.at_now c) n ret) h
  have h2 := getElem?_set_same threads t _ (Thread.mk (Pc.at_cas c (now ms)) n ret) h
  simp only [run, one_pass, List.foldl_cons, List.foldl_nil]
  have s1 : step (Shared.mk c threads) (Event.mk t (Attempt.mk ms true))
      = Shared.mk c (threads.set t (Thread.mk (Pc.at_now c) n ret)) := by
    simp only [step, h, hn, if_false]
  have s2 : step (Shared.mk c (threads.set t (Thread.mk (Pc.at_now c) n ret)))
        (Event.mk t (Attempt.mk ms true))
      = Shared.mk c (threads.set t (Thread.mk (Pc.at_cas c (now ms)) n ret)) := by
    simp only [step, h1, hn, if_false, List.set_set]
  rw [s1, s2]
  simp only [step, h2, hn, if_false, List.set_set, loop_body, compare_exchange_weak, true_and,
    and_self, if_true]
  by_cases hb : component_time c = now ms
  · rw [if_neg (not_not.mpr hb), if_neg (not_not.mpr hb)]
    rfl
  · rw [if_pos hb, if_pos hb]
    rfl

theorem set_same (threads : List Thread) :
    ∀ (t : Nat) (a : Thread), threads[t]? = some a → threads.set t a = threads := by
  induction threads with
  | nil => intro t a h; simp at h
  | cons x xs ih =>
    intro t a h
    cases t with
    | zero =>
      simp only [List.getElem?_cons_zero, Option.some.injEq] at h
      rw [List.set_cons_zero, h]
    | succ t =>
      rw [List.getElem?_cons_succ] at h
      rw [List.set_cons_succ, ih t a h]

theorem solo_succ (t ms k : Nat) : solo t ms (k + 1) = one_pass t ms ++ solo t ms k := rfl

theorem solo_add (t ms a b : Nat) : solo t ms (a + b) = solo t ms a ++ solo t ms b := by
  induction a with
  | zero => rw [Nat.zero_add]; rfl
  | succ a ih => rw [Nat.succ_add, solo_succ, solo_succ, ih, List.append_assoc]

theorem run_append (xs ys : List Event) (s : Shared) : run (xs ++ ys) s = run ys (run xs s) := by
  simp only [run, List.foldl_append]

/-- A pass of thread `t` that finds the cursor in another millisecond than the clock
shows: the clock value is returned and the cursor restarts behind it. -/
theorem run_pass_new_ms (threads : List Thread) (c t ms n : Nat) (ret : List Nat)
    (h : threads[t]? = some (Thread.mk Pc.at_load (n + 1) ret))
    (hne : component_time c ≠ now ms) (h0 : now ms ≠ 0) :
    run (one_pass t ms) (Shared.mk c threads)
      = Shared.mk (now ms + 1) (threads.set t (Thread.mk Pc.at_load n (ret ++ [now ms]))) := by
  rw [run_one_pass threads c t ms (n + 1) ret h (Nat.succ_ne_zero n), loop_body_uncontended,
    if_pos hne, now_add_one_mod]
  simp only [end_of_pass, if_neg h0, Nat.add_sub_cancel]

/-- A pass of thread `t` that finds the cursor in the millisecond the clock shows: the
cursor is returned and advanced by one. -/
theorem run_pass_same_ms (threads : List Thread) (c t ms n : Nat) (ret : List Nat)
    (h : threads[t]? = some (Thread.mk Pc.at_load (n + 1) ret))
    (he : component_time c = now ms) (h0 : c ≠ 0) :
    run (one_pass t ms) (Shared.mk c threads)
      = Shared.mk ((c + 1) % 2 ^ 64) (threads.set t (Thread.mk Pc.at_load n (ret ++ [c]))) := by
  rw [run_one_pass threads c t ms (n + 1) ret h (Nat.succ_ne_zero n), loop_body_uncontended,
    if_neg (not_not.mpr he)]
  simp only [end_of_pass, if_neg h0, Nat.add_sub_cancel]

/-- Thread `t` running alone while the clock stays at `ms` and the count field has
room: each of its calls returns the cursor and advances it by one. -/
theorem run_solo_window (ms : Nat) (h1 : 1 ≤ ms) (h2 : ms < 2 ^ 44 - 1) (t : Nat) (k : Nat) :
    ∀ j d ret threads, j + k ≤ 1048576 →
      threads[t]? = some (Thread.mk Pc.at_load (d + k) ret) →
      run (solo t ms k) (Shared.mk (ms * 1048576 + j) threads)
        = Shared.mk (ms * 1048576 + j + k)
            (threads.set t (Thread.mk Pc.at_load d (ret ++ List.range' (ms * 1048576 + j) k))) := by
  have hn : now ms = ms * 1048576 := by rw [now_eq]; omega
  induction k with
  | zero =>
    intro j d ret threads _ h
    rw [Nat.add_zero] at h
    rw [List.range'_zero, List.append_nil, set_same threads t _ h, Nat.add_zero]
    rfl
  | succ k ih =>
    intro j d ret threads hj h
    have ht : component_time (ms * 1048576 + j) = now ms := by
      rw [hn]; exact component_time_window _ j (by omega) (by omega) (by omega)
    have e1 : (ms * 1048576 + j + 1) % 2 ^ 64 = ms * 1048576 + (j + 1) := by omega
    have e2 : ms * 1048576 + (j + 1) + k = ms * 1048576 + j + (k + 1) := by omega
    have e3 : ms * 1048576 + (j + 1) = ms * 1048576 + j + 1 := by omega
    rw [solo_succ, run_append,
      run_pass_same_ms threads _ t ms (d + k) ret h ht (by omega), e1,
      ih (j + 1) d _ _ (by omega) (getElem?_set_same threads t _ _ h), List.set_set, e2,
      List.append_assoc, List.singleton_append, List.range'_succ, e3]

/-- Two threads on a fresh generator, the clock at `ms` throughout: thread 0 makes
`a + 1` calls, then thread 1 makes `b + 2` calls, where the first `1 + a + b = 2^20`
calls use up the count field.  The last two calls of thread 1 return the first two
values of thread 0 again. -/
theorem run_two_threads_past_carry (ms : Nat) (h1 : 1 ≤ ms) (h2 : ms < 2 ^ 44 - 1)
    (a b : Nat) (hab : 1 + a + b = 1048576) :
    run (solo 0 ms (a + 1) ++ solo 1 ms (b + 2))
        (Shared.mk 0 [Thread.mk Pc.at_load (a + 1) [], Thread.mk Pc.at_load (b + 2) []])
      = Shared.mk (ms * 1048576 + 2)
          [Thread.mk Pc.at_load 0 (ms * 1048576 :: List.range' (ms * 1048576 + 1) a),
           Thread.mk Pc.at_load 0
             (List.range' (ms * 1048576 + 1 + a) b ++ [ms * 1048576, ms * 1048576 + 1])] := by
  have hn : now ms = ms * 1048576 := by rw [now_eq]; omega
  have h0 : now ms ≠ 0 := by omega
  have hz : component_time 0 ≠ now ms := by rw [component_time_zero]; omega
  have hcarry : component_time (ms * 1048576 + 1 + a + b) ≠ now ms := by
    rw [component_time_eq _ (by omega), hn]; omega
  have hsame : component_time (ms * 1048576 + 1) = now ms := by
    rw [hn]; exact component_time_window _ 1 (by omega) (by omega) (by omega)
  have e2 : (ms * 1048576 + 1 + 1) % 2 ^ 64 = ms * 1048576 + 2 := by omega
  have sched1 : solo 1 ms (b + 2) = solo 1 ms b ++ (one_pass 1 ms ++ one_pass 1 ms) := by
    rw [solo_add]; rfl
  rw [solo_succ, sched1, run_append, run_append, run_append, run_append]
  -- thread 0, first call: the fresh cursor is in no millisecond
  rw [run_pass_new_ms _ 0 0 ms a [] rfl hz h0, List.set_cons_zero, List.nil_append, hn]
  -- thread 0, remaining calls
  rw [run_solo_window ms h1 h2 0 a 1 0 [ms * 1048576] _ (by omega)
      (by rw [Nat.zero_add]; rfl),
    List.set_cons_zero, List.singleton_append]
  -- thread 1 uses up the rest of the count field
  rw [Nat.add_assoc (ms * 1048576) 1 a,
    run_solo_window ms h1 h2 1 b (1 + a) 2 [] _ (by omega)
      (by rw [Nat.add_comm 2 b]; rfl),
    List.set_cons_succ, List.set_cons_zero, List.nil_append, ← Nat.add_assoc]
  -- thread 1: the cursor has carried into the time field
  rw [run_pass_new_ms _ _ 1 ms 1 _ rfl hcarry h0, List.set_cons_succ, List.set_cons_zero, hn]
  -- thread 1: the cursor is back in the window of `ms`
  rw [run_pass_same_ms _ _ 1 ms 0 _ rfl hsame (by omega), List.set_cons_succ,
    List.set_cons_zero, e2, List.append_assoc, List.singleton_append]

/-- C3 fails on the code: two threads share a fresh generator and make 524,289 calls
each, every clock read showing millisecond 1,700,000,000,000 and every compare-and-swap
succeeding; thread 0 runs its calls, then thread 1 runs its calls.  All calls complete,
and the last two values thread 1 receives are the first two values thread 0 received,
so the `2 * 524289` returned values are not pairwise distinct. -/
theorem uniqueness_under_contention_fails :
    ∃ r0 r1,
      run (solo 0 1700000000000 524289 ++ solo 1 1700000000000 524289) (shared_init 2 524289)
        = Shared.mk 1782579200000000002
            [Thread.mk Pc.at_load 0 r0, Thread.mk Pc.at_load 0 r1] ∧
      r0 = 1782579200000000000 :: List.range' 1782579200000000001 524288 ∧
      r1 = List.range' 1782579200000524289 524287
            ++ [1782579200000000000, 1782579200000000001] ∧
      r0.length = 524289 ∧ r1.length = 524289 ∧
      ¬ (r0 ++ r1).Nodup := by
  have h := run_two_threads_past_carry 1700000000000 (by norm_num) (by norm_num)
    524288 524287 (by norm_num)
  have ea : 524288 + 1 = 524289 := by norm_num
  have eT : 1700000000000 * 1048576 = 1782579200000000000 := by norm_num
  have e1 : 1782579200000000000 + 1 = 1782579200000000001 := by norm_num
  have e2 : 1782579200000000000 + 2 = 1782579200000000002 := by norm_num
  have e3 : 1782579200000000001 + 524288 = 1782579200000524289 := by norm_num
  rw [ea, eT, e1, e2, e3] at h
  have hi : shared_init 2 524289
      = Shared.mk 0 [Thread.mk Pc.at_load 524289 [], Thread.mk Pc.at_load 524289 []] := rfl
  refine ⟨_, _, ?_, rfl, rfl, ?_, ?_, ?_⟩
  · rw [hi]; exact h
  · rw [List.length_cons, List.length_range']
  · rw [List.length_append, List.length_range']; rfl
  · intro hnd
    exact (List.nodup_append.mp hnd).2.2 (List.mem_cons_self _ _)
      (List.mem_append_right _ (List.mem_cons_self _ _))

/-! ## Field layout -/

theorem masks_disjoint : time_mask &&& count_mask = 0 := by decide

/-- C11. Field extraction is a lossless split: for every 64-bit `v` the count component
is `v mod 2^20`, the time component is `v` with its low 20 bits cleared, the two share
no set bit and add up to `v`; the two masks are bitwise complements of each other in
64 bits. -/
theorem field_extraction_lossless (v : Nat) (hv : v < 2 ^ 64) :
    component_count v = v % 2 ^ 20 ∧
    component_time v = v - v % 2 ^ 20 ∧
    component_time v &&& component_count v = 0 ∧
    component_time v + component_count v = v ∧
    time_mask &&& count_mask = 0 ∧
    time_mask ||| count_mask = all_ones ∧
    time_mask ^^^ all_ones = count_mask := by
  refine ⟨?_, ?_, ?_, ?_, masks_disjoint, by decide, by decide⟩
  · rw [component_count_eq]; norm_num
  · rw [component_time_eq v hv]; omega
  · apply Nat.eq_of_testBit_eq
    intro i
    have h : (time_mask.testBit i && count_mask.testBit i) = false := by
      rw [← Nat.testBit_and, masks_disjoint]; exact Nat.zero_testBit i
    simp only [component_time, component_count, Nat.testBit_and, Nat.zero_testBit]
    cases hv' : v.testBit i <;> cases ht : time_mask.testBit i <;>
      cases hc : count_mask.testBit i <;> simp_all
  · rw [component_time_eq v hv, component_count_eq]; omega

/-- C11 at the value `(5 << 20) + 7`. -/
theorem field_extraction_lossless_witness :
    component_count 5242887 = 5242887 % 2 ^ 20 ∧
    component_time 5242887 = 5242887 - 5242887 % 2 ^ 20 ∧
    component_time 5242887 &&& component_count 5242887 = 0 ∧
    component_time 5242887 + component_count 5242887 = 5242887 ∧
    time_mask &&& count_mask = 0 ∧
    time_mask ||| count_mask = all_ones ∧
    time_mask ^^^ all_ones = count_mask :=
  field_extraction_lossless 5242887 (by decide)

/-- C18. `timestamp_from_ms` keeps the order of 44-bit inputs and loses nothing of
them: it is strictly increasing below `2^44`, shifting the time component back by 20
recovers the input, and bits of the input from bit 44 upwards are discarded. -/
theorem timestamp_from_ms_order :
    (∀ x y, x < y → y < 2 ^ 44 → timestamp_from_ms x < timestamp_from_ms y) ∧
    (∀ x, x < 2 ^ 44 → component_time (timestamp_from_ms x) >>> 20 = x) ∧
    (∀ x, timestamp_from_ms x = timestamp_from_ms (x % 2 ^ 44)) := by
  refine ⟨?_, ?_, ?_⟩
  · intro x y hxy hy
    rw [timestamp_from_ms_eq, timestamp_from_ms_eq]; omega
  · intro x hx
    have h := component_time_now x
    unfold now at h
    rw [h, timestamp_from_ms_eq, Nat.shiftRight_eq_div_pow]; omega
  · intro x
    rw [timestamp_from_ms_eq, timestamp_from_ms_eq]; omega

/-- C18 at the milliseconds 1,700,000,000,000 and 1,700,000,000,001. -/
theorem timestamp_from_ms_order_witness :
    timestamp_from_ms 1700000000000 < timestamp_from_ms 1700000000001 ∧
    component_time (timestamp_from_ms 1700000000000) >>> 20 = 1700000000000 :=
  ⟨timestamp_from_ms_order.1 1700000000000 1700000000001 (by decide) (by decide),
    timestamp_from_ms_order.2.1 1700000000000 (by decide)⟩

/-! ## Every call: passes, returned value and cursor -/

/-- Whatever the compare-and-swap outcomes, a call that returns `v` returns a non-zero
value and leaves the cursor at `v + 1` in 64-bit arithmetic. -/
theorem timestamp_now_result (env : List Attempt) :
    ∀ c v c' rest, timestamp_now c env = some (v, c', rest) →
      v ≠ 0 ∧ c' = (v + 1) % 2 ^ 64 := by
  induction env with
  | nil => intro c v c' rest h; simp [timestamp_now] at h
  | cons a env ih =>
    intro c v c' rest h
    rw [timestamp_now] at h
    by_cases h0 : (loop_body c a).1 = 0
    · rw [if_pos h0] at h
      exact ih _ _ _ _ h
    · rw [if_neg h0] at h
      simp only [Option.some.injEq, Prod.mk.injEq] at h
      obtain ⟨hv, hc, _⟩ := h
      refine ⟨by rw [← hv]; exact h0, ?_⟩
      cases a with
      | mk ms ok =>
        cases ok with
        | false => rw [loop_body_cas_failed] at h0; exact absurd rfl h0
        | true =>
          rw [loop_body_uncontended] at hv hc
          by_cases hb : component_time c = now ms
          · rw [if_neg (not_not.mpr hb)] at hv hc
            rw [← hv, ← hc]
          · rw [if_pos hb] at hv hc
            rw [← hv, ← hc]

/-- C12. Totality: from every cursor value and for all clock readings, an uncontended
call leaves its loop and returns a value after one pass or after two passes (the unused
clock readings start at the second or at the third reading). -/
theorem timestamp_now_at_most_two_passes (c m1 m2 : Nat) (readings : List Nat) :
    ∃ v c',
      timestamp_now c (uncontended (m1 :: m2 :: readings))
        = some (v, c', uncontended (m2 :: readings)) ∨
      timestamp_now c (uncontended (m1 :: m2 :: readings))
        = some (v, c', uncontended readings) := by
  rw [timestamp_now_uncontended_cons, timestamp_now_from_one]
  by_cases h : component_time c = now m1
  · rw [if_pos h]
    by_cases h0 : c = 0
    · rw [if_pos h0]
      by_cases h2 : now m2 = 0
      · rw [if_pos h2]; exact ⟨_, _, Or.inr rfl⟩
      · rw [if_neg h2]; exact ⟨_, _, Or.inr rfl⟩
    · rw [if_neg h0]; exact ⟨_, _, Or.inl rfl⟩
  · rw [if_neg h]
    by_cases h1 : now m1 = 0
    · rw [if_pos h1]
      by_cases h2 : now m2 = 0
      · rw [if_pos h2]; exact ⟨_, _, Or.inr rfl⟩
      · rw [if_neg h2]; exact ⟨_, _, Or.inr rfl⟩
    · rw [if_neg h1]; exact ⟨_, _, Or.inl rfl⟩

/-- C16. `timestamp_now` never returns 0: whatever the cursor, the clock readings and
the compare-and-swap outcomes, a returned value is non-zero; and an uncontended call
does return, also when a clock reading is 0 or shifts to 0. -/
theorem timestamp_now_never_zero (c : Nat) :
    (∀ env v c' rest, timestamp_now c env = some (v, c', rest) → v ≠ 0) ∧
    (∀ m1 m2 readings, ∃ v c' rest,
      timestamp_now c (uncontended (m1 :: m2 :: readings)) = some (v, c', rest) ∧ v ≠ 0) := by
  constructor
  · intro env v c' rest h
    exact (timestamp_now_result env c v c' rest h).1
  · intro m1 m2 readings
    have hs := timestamp_now_total c (m1 :: m2 :: readings) (by simp)
    obtain ⟨⟨v, c', rest⟩, h⟩ := Option.isSome_iff_exists.mp hs
    exact ⟨v, c', rest, h, (timestamp_now_result _ c v c' rest h).1⟩

/-- C16 on a fresh generator reading millisecond 0 and then millisecond `2^44`, whose
shift by 20 wraps to 0: the call returns 1. -/
theorem timestamp_now_never_zero_witness :
    timestamp_now 0 (uncontended [0, 17592186044416]) = some (1, 2, uncontended []) ∧
      (1 : Nat) ≠ 0 :=
  ⟨by decide,
    (timestamp_now_never_zero 0).1 (uncontended [0, 17592186044416]) 1 2 (uncontended [])
      (by decide)⟩

/-- C17. Cursor invariant: when a call returns `r`, the cursor afterwards is `r + 1`
modulo `2^64`, whatever the cursor before, the clock readings and the compare-and-swap
outcomes; and an uncontended call does return. -/
theorem cursor_is_result_plus_one (c : Nat) :
    (∀ env r c' rest, timestamp_now c env = some (r, c', rest) → c' = (r + 1) % 2 ^ 64) ∧
    (∀ m1 m2 readings, ∃ r rest,
      timestamp_now c (uncontended (m1 :: m2 :: readings))
        = some (r, (r + 1) % 2 ^ 64, rest)) := by
  constructor
  · intro env r c' rest h
    exact (timestamp_now_result env c r c' rest h).2
  · intro m1 m2 readings
    have hs := timestamp_now_total c (m1 :: m2 :: readings) (by simp)
    obtain ⟨⟨r, c', rest⟩, h⟩ := Option.isSome_iff_exists.mp hs
    have hc := (timestamp_now_result _ c r c' rest h).2
    rw [hc] at h
    exact ⟨r, rest, h⟩

/-- C17 on the cursor `2^64 - 1` with the clock at millisecond `2^44 - 1`: the call
returns `2^64 - 1` and the cursor wraps to 0. -/
theorem cursor_is_result_plus_one_witness :
    (0 : Nat) = (18446744073709551615 + 1) % 2 ^ 64 :=
  (cursor_is_result_plus_one 18446744073709551615).1 (uncontended [17592186044415])
    18446744073709551615 0 (uncontended []) (by decide)

/-! ## The count field within its capacity -/

/-- C13. Counter overflow: for `1 ≤ M < 2^44 - 1`, the first `2^20` uncontended calls on
a fresh generator that all read millisecond `M` return `(M << 20) + k` for
`k = 0, ..., 2^20 - 1`, and the cursor stored by the last of them is
`timestamp_from_ms (M + 1)`: its time component is one millisecond past `M` and its
count component is 0. -/
theorem counter_overflow (M : Nat) (h1 : 1 ≤ M) (h2 : M < 2 ^ 44 - 1) (rest : List Nat) :
    calls 1048576 0 (uncontended (List.replicate 1048576 M ++ rest))
      = some (List.range' (M <<< 20) 1048576, timestamp_from_ms (M + 1), uncontended rest) ∧
    component_time (timestamp_from_ms (M + 1)) = timestamp_from_ms M + 2 ^ 20 ∧
    component_count (timestamp_from_ms (M + 1)) = 0 := by
  have h := calls_fresh_frozen M h1 h2 rest 1048575 (by omega)
  have en : 1 + 1048575 = 1048576 := by norm_num
  have e : 1048575 + 1 = 1048576 := by norm_num
  have erep : M :: (List.replicate 1048575 M ++ rest) = List.replicate 1048576 M ++ rest := by
    have r1 : List.replicate (1048575 + 1) M = M :: List.replicate 1048575 M :=
      List.replicate_succ M 1048575
    rw [e] at r1
    rw [r1, List.cons_append]
  have eshift : M <<< 20 = M * 1048576 := by rw [Nat.shiftLeft_eq]
  have erange : M * 1048576 :: List.range' (M * 1048576 + 1) 1048575
      = List.range' (M * 1048576) 1048576 := by
    have r2 := List.range'_succ (M * 1048576) 1048575 1
    rw [e] at r2
    exact r2.symm
  have ets : timestamp_from_ms (M + 1) = M * 1048576 + 1 + 1048575 := by
    rw [timestamp_from_ms_eq]; omega
  rw [en, erep, erange] at h
  refine ⟨?_, ?_, ?_⟩
  · rw [eshift, ets]; exact h
  · have ht := component_time_now (M + 1)
    unfold now at ht
    rw [ht, timestamp_from_ms_eq, timestamp_from_ms_eq]; omega
  · rw [component_count_eq, timestamp_from_ms_eq]; omega

/-- C13 at millisecond 1,700,000,000,000. -/
theorem counter_overflow_witness :
    calls 1048576 0 (uncontended (List.replicate 1048576 1700000000000 ++ []))
      = some (List.range' (1700000000000 <<< 20) 1048576,
          timestamp_from_ms (1700000000000 + 1), uncontended []) ∧
    component_time (timestamp_from_ms (1700000000000 + 1))
      = timestamp_from_ms 1700000000000 + 2 ^ 20 ∧
    component_count (timestamp_from_ms (1700000000000 + 1)) = 0 :=
  counter_overflow 1700000000000 (by norm_num) (by norm_num) []

/-- The calls that follow `k` calls in millisecond `last` on readings that never decrease,
stay below `2^44` and bring no millisecond more than `2^20` calls: every call returns,
using one reading, and each value is greater than the one before it. -/
theorem calls_nondecreasing (rest : List Nat) :
    ∀ last k, 1 ≤ last → last < 2 ^ 44 → 1 ≤ k →
      List.Chain (fun a b => a ≤ b) last rest →
      (∀ m ∈ rest, m < 2 ^ 44) →
      (∀ m, (if m = last then k else 0) + rest.count m ≤ 1048576) →
      ∃ rs c', calls rest.length ((last * 1048576 + k) % 2 ^ 64) (uncontended rest)
          = some (rs, c', uncontended []) ∧
        List.Chain (fun a b => a < b) (last * 1048576 + k - 1) rs := by
  induction rest with
  | nil =>
    intro last k _ _ _ _ _ _
    exact ⟨[], _, rfl, List.Chain.nil⟩
  | cons m rest ih =>
    intro last k hl1 hl2 hk hchain hlt hcount
    obtain ⟨hle, hchain'⟩ := List.chain_cons.mp hchain
    have hm2 : m < 2 ^ 44 := hlt m (List.mem_cons_self _ _)
    have hlt' : ∀ x ∈ rest, x < 2 ^ 44 := fun x hx => hlt x (List.mem_cons_of_mem _ hx)
    have hnm : now m = m * 1048576 := by rw [now_eq]; omega
    have hklast := hcount last
    rw [if_pos rfl] at hklast
    by_cases hml : m = last
    · -- another call in the same millisecond
      subst hml
      rw [List.count_cons_self] at hklast
      have hcur : (m * 1048576 + k) % 2 ^ 64 = m * 1048576 + k := by omega
      have ht : component_time (m * 1048576 + k) = now m := by
        rw [hnm]; exact component_time_window _ k (by omega) (by omega) (by omega)
      have hcount' : ∀ x, (if x = m then k + 1 else 0) + rest.count x ≤ 1048576 := by
        intro x
        have hx := hcount x
        by_cases hxm : x = m
        · subst hxm
          rw [if_pos rfl, List.count_cons_self] at hx
          rw [if_pos rfl]; omega
        · rw [if_neg hxm, List.count_cons_of_ne hxm] at hx
          rw [if_neg hxm]; exact hx
      obtain ⟨rs, c', hcalls, hinc⟩ := ih m (k + 1) hl1 hl2 (by omega) hchain' hlt' hcount'
      have e1 : (m * 1048576 + k + 1) % 2 ^ 64 = (m * 1048576 + (k + 1)) % 2 ^ 64 := by
        rw [Nat.add_assoc]
      have e2 : m * 1048576 + (k + 1) - 1 = m * 1048576 + k := by omega
      rw [e2] at hinc
      refine ⟨(m * 1048576 + k) :: rs, c', ?_, List.Chain.cons (by omega) hinc⟩
      rw [hcur, List.length_cons, calls, timestamp_now_same_ms _ m _ ht (by omega), e1]
      simp only [hcalls]
    · -- the clock has moved on
      have hlm : last < m := by omega
      have hcur : (last * 1048576 + k) % 2 ^ 64 = last * 1048576 + k := by omega
      have hcount' : ∀ x, (if x = m then 1 else 0) + rest.count x ≤ 1048576 := by
        intro x
        have hx := hcount x
        by_cases hxm : x = m
        · subst hxm
          rw [if_neg hml, List.count_cons_self] at hx
          rw [if_pos rfl]; omega
        · rw [List.count_cons_of_ne hxm] at hx
          rw [if_neg hxm]; omega
      obtain ⟨rs, c', hcalls, hinc⟩ := ih m 1 (by omega) hm2 (by omega) hchain' hlt' hcount'
      have e2 : m * 1048576 + 1 - 1 = m * 1048576 := by omega
      rw [e2] at hinc
      have hstep : timestamp_now (last * 1048576 + k) (uncontended (m :: rest))
          = some (m * 1048576, (m * 1048576 + 1) % 2 ^ 64, uncontended rest) := by
        by_cases ht : component_time (last * 1048576 + k) = now m
        · have hc : last * 1048576 + k = m * 1048576 := by
            rw [component_time_eq _ (by omega), hnm] at ht; omega
          rw [timestamp_now_same_ms _ m _ ht (by omega), hc]
        · rw [timestamp_now_new_ms _ m _ ht (by omega), hnm]
          have : (m * 1048576 + 1) % 2 ^ 64 = m * 1048576 + 1 := by omega
          rw [this]
      refine ⟨(m * 1048576) :: rs, c', ?_, List.Chain.cons (by omega) hinc⟩
      rw [hcur, List.length_cons, calls, hstep]
      simp only [hcalls]

/-- C15. Strict monotonicity below the rate limit: on a fresh generator, for clock
readings that never decrease, all lie in `[1, 2^44)` and show no millisecond to more than
`2^20` calls, every uncontended call returns using one reading, each returned value is
greater than the one before it, and so the values are pairwise distinct. -/
theorem strictly_increasing_below_rate_limit (readings : List Nat)
    (hsorted : List.Chain' (fun a b => a ≤ b) readings)
    (hrange : ∀ m ∈ readings, 1 ≤ m ∧ m < 2 ^ 44)
    (hrate : ∀ m, readings.count m ≤ 2 ^ 20) :
    ∃ rs c, calls readings.length 0 (uncontended readings) = some (rs, c, uncontended []) ∧
      List.Chain' (fun a b => a < b) rs ∧ rs.Nodup := by
  cases readings with
  | nil => exact ⟨[], 0, rfl, List.chain'_nil, List.nodup_nil⟩
  | cons m rest =>
    obtain ⟨hm1, hm2⟩ := hrange m (List.mem_cons_self _ _)
    have hnm : now m = m * 1048576 := by rw [now_eq]; omega
    have hcount : ∀ x, (if x = m then 1 else 0) + rest.count x ≤ 1048576 := by
      intro x
      have hx := hrate x
      by_cases hxm : x = m
      · subst hxm
        rw [List.count_cons_self] at hx
        rw [if_pos rfl]; omega
      · rw [List.count_cons_of_ne hxm] at hx
        rw [if_neg hxm]; omega
    obtain ⟨rs, c', hcalls, hinc⟩ := calls_nondecreasing rest m 1 hm1 hm2 (by omega) hsorted
      (fun x hx => (hrange x (List.mem_cons_of_mem _ hx)).2) hcount
    have e1 : (m * 1048576 + 1) % 2 ^ 64 = m * 1048576 + 1 := by omega
    have e2 : m * 1048576 + 1 - 1 = m * 1048576 := by omega
    rw [e1] at hcalls
    rw [e2] at hinc
    have hfirst : timestamp_now 0 (uncontended (m :: rest))
        = some (m * 1048576, m * 1048576 + 1, uncontended rest) := by
      rw [timestamp_now_new_ms 0 m _ (by rw [component_time_zero]; omega) (by omega), hnm]
    have hchain : List.Chain' (fun a b => a < b) (m * 1048576 :: rs) := hinc
    refine ⟨m * 1048576 :: rs, c', ?_, hchain, ?_⟩
    · rw [List.length_cons, calls, hfirst]
      simp only [hcalls]
    · have hp : List.Pairwise (fun a b => a < b) (m * 1048576 :: rs) :=
        List.chain'_iff_pairwise.mp hchain
      exact hp.imp (fun h => Nat.ne_of_lt h)

/-- C15 on the readings 1, 1, 2, 5. -/
theorem strictly_increasing_below_rate_limit_witness :
    ∃ rs c, calls [1, 1, 2, 5].length 0 (uncontended [1, 1, 2, 5])
        = some (rs, c, uncontended []) ∧
      List.Chain' (fun a b => a < b) rs ∧ rs.Nodup :=
  strictly_increasing_below_rate_limit [1, 1, 2, 5] (by simp) (by decide)
    (fun m => Nat.le_trans (List.count_le_length m _) (by decide))

end timestamp_generator

/-! ## Network selection -/

namespace network_constants

/-- C14. `set_active_network` with a string returns an error exactly when the string is
none of "live", "beta" and "test"; on error the active network is unchanged, and on
success it is the live, beta or test network respectively. -/
theorem set_active_network_error_iff {E : Type} (ops : error_interface E)
    (h_default : ops.is_error ops.default_constructed = false)
    (h_assign : ∀ e m, ops.is_error (ops.assign_message e m) = true)
    (active_network : nano_networks) (network_a : String) :
    (ops.is_error (set_active_network ops active_network network_a).1 = true ↔
      (network_a ≠ "live" ∧ network_a ≠ "beta" ∧ network_a ≠ "test")) ∧
    (ops.is_error (set_active_network ops active_network network_a).1 = true →
      (set_active_network ops active_network network_a).2 = active_network) ∧
    (network_a = "live" →
      (set_active_network ops active_network network_a).2 = nano_networks.nano_live_network) ∧
    (network_a = "beta" →
      (set_active_network ops active_network network_a).2 = nano_networks.nano_beta_network) ∧
    (network_a = "test" →
      (set_active_network ops active_network network_a).2 = nano_networks.nano_test_network) := by
  unfold set_active_network
  by_cases h1 : network_a = "live"
  · subst h1
    simp [h_default]
  · by_cases h2 : network_a = "beta"
    · subst h2
      simp [h_default]
    · by_cases h3 : network_a = "test"
      · subst h3
        simp [h_default]
      · simp [h1, h2, h3, h_assign]

/-- C14 on the string "Live" while the beta network is active: an error, and the
active network stays beta. -/
theorem set_active_network_error_iff_witness :
    message_error.is_error
        (set_active_network message_error nano_networks.nano_beta_network "Live").1 = true ∧
      (set_active_network message_error nano_networks.nano_beta_network "Live").2
        = nano_networks.nano_beta_network :=
  have h := set_active_network_error_iff message_error rfl (fun _ _ => rfl)
    nano_networks.nano_beta_network "Live"
  ⟨h.1.mpr (by decide), h.2.1 (h.1.mpr (by decide))⟩

/-- C19. Network name round trip: for each network `n` the constants built for `n` give
its name "live", "beta" or "test", exactly one of `is_live_network`, `is_beta_network`
and `is_test_network` holds, and `set_active_network` with that name returns no error
and makes `n` the active network. -/
theorem network_name_round_trip {E : Type} (ops : error_interface E)
    (h_default : ops.is_error ops.default_constructed = false)
    (is_sanitizer_build : Bool) (active_network n : nano_networks) :
    (ctor is_sanitizer_build n).get_current_network_as_string
      = (match n with
         | nano_networks.nano_live_network => "live"
         | nano_networks.nano_beta_network => "beta"
         | nano_networks.nano_test_network => "test") ∧
    (ctor is_sanitizer_build n).is_live_network.toNat
      + (ctor is_sanitizer_build n).is_beta_network.toNat
      + (ctor is_sanitizer_build n).is_test_network.toNat = 1 ∧
    ops.is_error (set_active_network ops active_network
      (ctor is_sanitizer_build n).get_current_network_as_string).1 = false ∧
    (set_active_network ops active_network
      (ctor is_sanitizer_build n).get_current_network_as_string).2 = n := by
  cases n <;>
    simp [ctor, get_current_network_as_string, is_live_network, is_beta_network,
      is_test_network, set_active_network, h_default]

/-- C19 for the beta network while the live network is active. -/
theorem network_name_round_trip_witness :
    (ctor false nano_networks.nano_beta_network).get_current_network_as_string = "beta" ∧
    (ctor false nano_networks.nano_beta_network).is_live_network.toNat
      + (ctor false nano_networks.nano_beta_network).is_beta_network.toNat
      + (ctor false nano_networks.nano_beta_network).is_test_network.toNat = 1 ∧
    message_error.is_error (set_active_network message_error nano_networks.nano_live_network
      (ctor false nano_networks.nano_beta_network).get_current_network_as_string).1 = false ∧
    (set_active_network message_error nano_networks.nano_live_network
      (ctor false nano_networks.nano_beta_network).get_current_network_as_string).2
        = nano_networks.nano_beta_network :=
  network_name_round_trip message_error rfl false nano_networks.nano_live_network
    nano_networks.nano_beta_network

end network_constants

end nano
